import Mathlib

/-!
Shallow embedding of the go-package-dependency core (src/parser.go, src/types.go):
the markdown-like dependency-specification parser and the dependency deriver.
Strings are modelled as lists of characters; Go's whitespace sets are restricted
to their ASCII members, which is the alphabet the specification format uses.
-/

namespace GoDep

/-- A Go string, modelled as its character list. -/
abbrev Str := List Char

/-- ASCII members of Go `unicode.IsSpace`, used by `strings.TrimSpace`. -/
def isGoSpace (c : Char) : Bool :=
  c == ' ' || c == '\t' || c == '\n' || c == '\x0b' || c == '\x0c' || c == '\r'

/-- The character class of `\s` in Go regexp: `[\t\n\f\r ]` (no vertical tab). -/
def isReSpace (c : Char) : Bool :=
  c == ' ' || c == '\t' || c == '\n' || c == '\x0c' || c == '\r'

/-- Left part of `strings.TrimSpace`. -/
def trimLeft (s : Str) : Str := s.dropWhile isGoSpace

/-- Right part of `strings.TrimSpace`. -/
def trimRight (s : Str) : Str := (s.reverse.dropWhile isGoSpace).reverse

/-- `strings.TrimSpace`, restricted to ASCII whitespace. -/
def trimSpace (s : Str) : Str := trimRight (trimLeft s)

/-- `strings.Contains s pat`: `pat` occurs as a contiguous substring of `s`. -/
def containsSub : Str → Str → Bool
  | [], pat => pat.isEmpty
  | c :: t, pat => pat.isPrefixOf (c :: t) || containsSub t pat

/-- The descriptive-phrase token that marks prose lines. -/
def cannotDependTok : Str := ("cannot depend").toList

/-- The bullet marker of package lines. -/
def bulletTok : Str := ['-', ' ']

/-- The Layers section header token. -/
def layersHeaderTok : Str := ("## Layers").toList

/-- The Packages section header token. -/
def packagesHeaderTok : Str := ("## Packages in layers").toList

/-- The manifest keyword token. -/
def moduleTok : Str := ("module ").toList

/-- The parent-directory traversal token rejected by path validation. -/
def dotDotTok : Str := ("..").toList

/-- Numeric value of a digit string, as computed by `strconv.Atoi` on `\d+`. -/
def natOfDigits (s : Str) : Nat := s.foldl (fun n c => n * 10 + (c.toNat - 48)) 0

/-- Matches the common front of `^(\d+)\.` of the two layer-line regexes:
returns the parsed integer and the text after the dot, or `none`. -/
def numberedLine (s : Str) : Option (Nat × Str) :=
  if (s.takeWhile Char.isDigit).isEmpty then none
  else
    match s.dropWhile Char.isDigit with
    | '.' :: tail => some (natOfDigits (s.takeWhile Char.isDigit), tail)
    | _ => none

/-- `bufio.ScanLines`: strip one trailing carriage return from a line. -/
def dropCR (l : Str) : Str :=
  match l.getLast? with
  | some '\r' => l.dropLast
  | _ => l

/-- Split on newline characters, accumulating the current line. -/
def splitNlAux (cur : Str) : Str → List Str
  | [] => [cur.reverse]
  | '\n' :: t => cur.reverse :: splitNlAux [] t
  | c :: t => splitNlAux (c :: cur) t

/-- The line sequence produced by `bufio.Scanner` with `ScanLines`:
split on newlines, drop a final empty segment, strip trailing `\r`s. -/
def splitNl (s : Str) : List Str :=
  let ls := splitNlAux [] s
  (if ls.getLast? = some [] then ls.dropLast else ls).map dropCR

/-- Error taxonomy of the parsing core (§7 of the spec). -/
inductive ParseErr where
  | invalidName
  | invalidPath
  | invalidModule
  | moduleNotFound
deriving DecidableEq

/-- `Package` of src/types.go: a path and its indentation level. -/
structure Package where
  Path : Str
  Level : Nat
deriving DecidableEq

/-- `Layer` of src/types.go: name, declared order, packages in declaration order. -/
structure Layer where
  Name : Str
  Order : Nat
  Packages : List Package
deriving DecidableEq

/-- `DependencyConfig` of src/types.go: the root model. -/
structure DependencyConfig where
  Layers : List Layer
deriving DecidableEq

/-- `LayerName.Validate`: an error exactly when the name is empty or whitespace-only. -/
def layerNameValidate (s : Str) : Option ParseErr :=
  if s.isEmpty || (trimSpace s).isEmpty then some .invalidName else none

/-- `LayerPath.Validate`: an error when the path is empty or whitespace-only,
or contains the two-character substring `..` anywhere. -/
def layerPathValidate (s : Str) : Option ParseErr :=
  if s.isEmpty || (trimSpace s).isEmpty then some .invalidPath
  else if containsSub s dotDotTok then some .invalidPath
  else none

/-- `ModuleName.Validate`: an error when the name is empty or whitespace-only,
or contains a space character. -/
def moduleNameValidate (s : Str) : Option ParseErr :=
  if s.isEmpty || (trimSpace s).isEmpty then some .invalidModule
  else if containsSub s [' '] then some .invalidModule
  else none

/-- `Parser.calculateIndentationLevel`: count the leading run of space
characters of the raw line; four or more map to level 1, fewer to level 0. -/
def calculateIndentationLevel (line : Str) : Nat :=
  let spacesBeforeDash := (line.takeWhile (fun c => c == ' ')).length
  if spacesBeforeDash >= 4 then 1
  else if spacesBeforeDash >= 2 then 0
  else 0

/-- Replace the element at an index, leaving the list unchanged when out of range
(the index model of Go's `*currentLayer` pointer into `config.Layers`). -/
def modifyIdx : List α → Nat → (α → α) → List α
  | [], _, _ => []
  | x :: t, 0, f => f x :: t
  | x :: t, n + 1, f => x :: modifyIdx t n f

/-- Append a package to the packages of the layer at index `i`. -/
def appendPkg (cfg : DependencyConfig) (i : Nat) (pkg : Package) : DependencyConfig :=
  ⟨modifyIdx cfg.Layers i (fun l => ⟨l.Name, l.Order, l.Packages ++ [pkg]⟩)⟩

/-- The selector lookup of `ParsePackagesSection`: index of the first layer whose
name and order both match. -/
def findLayerIdx (cfg : DependencyConfig) (name : Str) (order : Nat) : Option Nat :=
  cfg.Layers.findIdx? (fun l => l.Name == name && l.Order == order)

/-- `Parser.ParseLayersSection` on one raw line. -/
def parseLayersLine (rawLine : Str) (cfg : DependencyConfig) :
    Except ParseErr DependencyConfig :=
  let trimmed := trimSpace rawLine
  if ['-'].isPrefixOf trimmed || containsSub trimmed cannotDependTok
      || trimmed.isEmpty then
    .ok cfg
  else
    match numberedLine trimmed with
    | none => .ok cfg
    | some (order, tail) =>
      if tail.all isReSpace then .error .invalidName
      else if (tail.takeWhile isReSpace).isEmpty then .ok cfg
      else
        let layerName := trimSpace (tail.dropWhile isReSpace)
        match layerNameValidate layerName with
        | some e => .error e
        | none => .ok ⟨cfg.Layers ++ [⟨layerName, order, []⟩]⟩

/-- `Parser.ParsePackagesSection` on one raw line: selector lines re-bind the
current layer on a successful lookup, bullet lines append a package to it. -/
def parsePackagesLine (rawLine : Str) (cfg : DependencyConfig) (cur : Option Nat) :
    Except ParseErr (DependencyConfig × Option Nat) :=
  let trimmed := trimSpace rawLine
  if containsSub trimmed cannotDependTok || trimmed.isEmpty then
    .ok (cfg, cur)
  else
    match numberedLine trimmed with
    | some (order, tail) =>
      if tail.all isReSpace then .error .invalidName
      else if (tail.takeWhile isReSpace).isEmpty then .ok (cfg, cur)
      else
        let layerName := trimSpace (tail.dropWhile isReSpace)
        match findLayerIdx cfg layerName order with
        | some i => .ok (cfg, some i)
        | none => .ok (cfg, cur)
    | none =>
      if bulletTok.isPrefixOf trimmed then
        match cur with
        | some i =>
          let packagePath := trimSpace (trimmed.drop 2)
          if packagePath.isEmpty then .ok (cfg, cur)
          else
            match layerPathValidate packagePath with
            | some e => .error e
            | none =>
              .ok (appendPkg cfg i ⟨packagePath, calculateIndentationLevel rawLine⟩, cur)
        | none => .ok (cfg, cur)
      else .ok (cfg, cur)

/-- The mutable context of `Parser.ParseDependencyContent`: the model under
construction, the two section flags, and the current-layer index. -/
structure ParseState where
  config : DependencyConfig
  inLayers : Bool
  inPackages : Bool
  currentLayer : Option Nat
deriving DecidableEq

/-- The state before the first line. -/
def initState : ParseState := ⟨⟨[]⟩, false, false, none⟩

/-- One iteration of the scan loop of `Parser.ParseDependencyContent`. -/
def parseLine (st : ParseState) (rawLine : Str) : Except ParseErr ParseState :=
  let line := trimSpace rawLine
  if layersHeaderTok.isPrefixOf line then
    .ok { st with inLayers := true, inPackages := false }
  else if packagesHeaderTok.isPrefixOf line then
    .ok { st with inLayers := false, inPackages := true, currentLayer := none }
  else if line.isEmpty || ['#'].isPrefixOf line then
    .ok st
  else
    match (if st.inLayers then parseLayersLine rawLine st.config else .ok st.config) with
    | .error e => .error e
    | .ok cfg1 =>
      if st.inPackages then
        match parsePackagesLine rawLine cfg1 st.currentLayer with
        | .error e => .error e
        | .ok (cfg2, cur2) => .ok { st with config := cfg2, currentLayer := cur2 }
      else .ok { st with config := cfg1 }

/-- The scan loop over the remaining lines. -/
def runLines (st : ParseState) : List Str → Except ParseErr ParseState
  | [] => .ok st
  | l :: ls =>
    match parseLine st l with
    | .error e => .error e
    | .ok st2 => runLines st2 ls

/-- `Parser.ParseDependencyContent` on an already-split line sequence. -/
def ParseDependencyContentLines (lines : List Str) : Except ParseErr DependencyConfig :=
  match runLines initState lines with
  | .error e => .error e
  | .ok st => .ok st.config

/-- `Parser.ParseDependencyContent` on the full input text. -/
def ParseDependencyContent (text : Str) : Except ParseErr DependencyConfig :=
  ParseDependencyContentLines (splitNl text)

/-- `Parser.GetModuleNameFromContent` on an already-split line sequence. -/
def GetModuleNameFromContentLines : List Str → Except ParseErr Str
  | [] => .error .moduleNotFound
  | l :: ls =>
    let line := trimSpace l
    if moduleTok.isPrefixOf line then
      let moduleName := trimSpace (line.drop 7)
      match moduleNameValidate moduleName with
      | some e => .error e
      | none => .ok moduleName
    else GetModuleNameFromContentLines ls

/-- `Parser.GetModuleNameFromContent` on the full manifest text. -/
def GetModuleNameFromContent (text : Str) : Except ParseErr Str :=
  GetModuleNameFromContentLines (splitNl text)

/-- The first loop of `DependencyConfig.GetDependenciesForPackage`: walk the
layers in declaration order and take every package path of the layers whose
order is strictly below the target layer's order. -/
def upperPaths (layers : List Layer) (targetOrder : Nat) : List Str :=
  match layers with
  | [] => []
  | l :: t =>
    (if decide (l.Order < targetOrder) then l.Packages.map Package.Path else [])
      ++ upperPaths t targetOrder

/-- The second loop of `DependencyConfig.GetDependenciesForPackage`: walk the
target layer's packages with their index, keeping those with a different path
that sit at a strictly smaller level, or at the same level and an index before
the target's. -/
def sameLayerPaths (pkgs : List Package) (i : Nat) (target : Package)
    (targetIndex : Nat) : List Str :=
  match pkgs with
  | [] => []
  | p :: t =>
    (if p.Path != target.Path
        && (decide (p.Level < target.Level)
            || (p.Level == target.Level && decide (i < targetIndex))) then
      [p.Path]
    else [])
      ++ sameLayerPaths t (i + 1) target targetIndex

/-- `DependencyConfig.GetDependenciesForPackage`: locate the first layer that
contains the target's path, then concatenate the upper-layer walk and the
same-layer walk. -/
def GetDependenciesForPackage (cfg : DependencyConfig) (target : Package) : List Str :=
  match cfg.Layers.find? (fun l => l.Packages.any (fun p => p.Path == target.Path)) with
  | none => []
  | some targetLayer =>
    upperPaths cfg.Layers targetLayer.Order
      ++ sameLayerPaths targetLayer.Packages 0 target
          (targetLayer.Packages.findIdx (fun p => p.Path == target.Path))

/-- Insert a layer in front of the first layer of strictly larger order
(stable insertion, used only by the spec-worded deriver below). -/
def insertByOrder (l : Layer) : List Layer → List Layer
  | [] => [l]
  | x :: t => if decide (l.Order < x.Order) then l :: x :: t else x :: insertByOrder l t

/-- Stable sort of layers by ascending order field. -/
def sortByOrder (layers : List Layer) : List Layer := layers.foldr insertByOrder []

/-- Modelled from the spec: the §4.5 deriver with its step-2 sentence read
literally — the qualifying upper layers are visited in ascending order of
their `order` field, not in model declaration order. Built only to compare
against `GetDependenciesForPackage` (claim C2). -/
def GetDependenciesForPackageAsc (cfg : DependencyConfig) (target : Package) : List Str :=
  match cfg.Layers.find? (fun l => l.Packages.any (fun p => p.Path == target.Path)) with
  | none => []
  | some targetLayer =>
    upperPaths (sortByOrder cfg.Layers) targetLayer.Order
      ++ sameLayerPaths targetLayer.Packages 0 target
          (targetLayer.Packages.findIdx (fun p => p.Path == target.Path))

/-- Modelled from the spec: the same-layer walk with the §4.5 step-3 sentences
read literally — only the target element itself is excluded (comparison of the
whole package value, not of the path), and the target's index is the index of
the target element. Built only to compare against `sameLayerPaths` (claim C3). -/
def sameLayerPathsSpecC3 (pkgs : List Package) (i : Nat) (target : Package)
    (targetIndex : Nat) : List Str :=
  match pkgs with
  | [] => []
  | p :: t =>
    (if decide (¬ p = target)
        && (decide (p.Level < target.Level)
            || (p.Level == target.Level && decide (i < targetIndex))) then
      [p.Path]
    else [])
      ++ sameLayerPathsSpecC3 t (i + 1) target targetIndex

/-- Modelled from the spec: the §4.5 deriver with the literal step-3 reading of
claim C3 substituted for the same-layer walk. -/
def GetDependenciesForPackageSpecC3 (cfg : DependencyConfig) (target : Package) : List Str :=
  match cfg.Layers.find? (fun l => l.Packages.any (fun p => p.Path == target.Path)) with
  | none => []
  | some targetLayer =>
    upperPaths cfg.Layers targetLayer.Order
      ++ sameLayerPathsSpecC3 targetLayer.Packages 0 target
          (targetLayer.Packages.findIdx (fun p => decide (p = target)))

/-- Overwrite a package's stored level when its path equals `path`. -/
def setPkgLevel (path : Str) (lvl : Nat) (p : Package) : Package :=
  if p.Path == path then ⟨p.Path, lvl⟩ else p

/-- Apply `setPkgLevel` to every package of a layer. -/
def setLayerLevel (path : Str) (lvl : Nat) (l : Layer) : Layer :=
  ⟨l.Name, l.Order, l.Packages.map (setPkgLevel path lvl)⟩

/-- Overwrite the stored level of every package whose path equals `path`,
everywhere in the model (used to state that the deriver never reads the stored
level of the target package). -/
def setLevelAt (path : Str) (lvl : Nat) (cfg : DependencyConfig) : DependencyConfig :=
  ⟨cfg.Layers.map (setLayerLevel path lvl)⟩

/-- Every package of the model sits at level 0 or level 1. -/
def pkgLevelsOK (cfg : DependencyConfig) : Prop :=
  ∀ l ∈ cfg.Layers, ∀ p ∈ l.Packages, p.Level = 0 ∨ p.Level = 1

/-- The canonical 4-layer model of §8 of the spec. -/
def canonicalConfig : DependencyConfig :=
  ⟨[⟨("Domain layer").toList, 1,
      [⟨("domain/entity").toList, 0⟩, ⟨("domain/valueobject").toList, 0⟩,
       ⟨("domain/service").toList, 1⟩]⟩,
    ⟨("Application layer").toList, 2,
      [⟨("app/service").toList, 0⟩, ⟨("app/usecase").toList, 1⟩]⟩,
    ⟨("Presentation layer").toList, 3,
      [⟨("pres/handler").toList, 0⟩, ⟨("pres/view").toList, 1⟩]⟩,
    ⟨("Infra layer").toList, 4,
      [⟨("infra/repository").toList, 0⟩, ⟨("infra/db").toList, 1⟩]⟩]⟩

/-- The Domain layer of the canonical model. -/
def domainLayer : Layer :=
  ⟨("Domain layer").toList, 1,
    [⟨("domain/entity").toList, 0⟩, ⟨("domain/valueobject").toList, 0⟩,
     ⟨("domain/service").toList, 1⟩]⟩

/-- The Application layer of the canonical model. -/
def appLayer : Layer :=
  ⟨("Application layer").toList, 2,
    [⟨("app/service").toList, 0⟩, ⟨("app/usecase").toList, 1⟩]⟩

/-- An input whose Packages section has a successful selector, then a selector
naming an undeclared layer, then a bullet line. -/
def c1text : Str :=
  ("## Layers\n1. A\n## Packages in layers\n1. A\n2. B\n- x").toList

/-- A model whose layers are declared out of ascending order. -/
def c2Config : DependencyConfig :=
  ⟨[⟨("B").toList, 2, [⟨("b").toList, 0⟩]⟩,
    ⟨("A").toList, 1, [⟨("a").toList, 0⟩]⟩,
    ⟨("C").toList, 3, [⟨("c").toList, 0⟩]⟩]⟩

/-- A model whose single layer holds two packages with the same path. -/
def c3Config : DependencyConfig :=
  ⟨[⟨("L").toList, 1, [⟨("a").toList, 0⟩, ⟨("a").toList, 1⟩]⟩]⟩

/-- An input declaring one layer with one level-1 package. -/
def c7text : Str :=
  ("## Layers\n1. A\n## Packages in layers\n1. A\n    - deep/pkg").toList

/-- A model with two same-level packages in one layer. -/
def c10Config : DependencyConfig :=
  ⟨[⟨("L").toList, 1, [⟨("a").toList, 1⟩, ⟨("b").toList, 1⟩]⟩]⟩

/-! Helper lemmas shared by the claim theorems. -/

theorem runLines_append (st : ParseState) (xs ys : List Str) :
    runLines st (xs ++ ys)
      = match runLines st xs with
        | .error e => .error e
        | .ok st2 => runLines st2 ys := by
  induction xs generalizing st with
  | nil => rfl
  | cons l ls ih =>
    simp only [List.cons_append, runLines]
    cases parseLine st l with
    | error e => rfl
    | ok st2 => exact ih st2

theorem mem_modifyIdx {α : Type} {a : α} (l : List α) (n : Nat) (f : α → α)
    (h : a ∈ modifyIdx l n f) : a ∈ l ∨ ∃ b, b ∈ l ∧ a = f b := by
  induction l generalizing n with
  | nil => cases h
  | cons x t ih =>
    cases n with
    | zero =>
      rcases List.mem_cons.mp h with h1 | h2
      · exact Or.inr ⟨x, List.mem_cons_self x t, h1⟩
      · exact Or.inl (List.mem_cons_of_mem x h2)
    | succ m =>
      rcases List.mem_cons.mp h with h1 | h2
      · exact Or.inl (h1 ▸ List.mem_cons_self x t)
      · rcases ih m h2 with h3 | ⟨b, hb, hfb⟩
        · exact Or.inl (List.mem_cons_of_mem x h3)
        · exact Or.inr ⟨b, List.mem_cons_of_mem x hb, hfb⟩

/-- C4: on the canonical 4-layer model of §8 the deriver returns `[]` for
`domain/entity`, the two level-0 siblings for `domain/service`, and the whole
Domain layer followed by `app/service` for `app/usecase`. -/
theorem c4_canonical_examples :
    GetDependenciesForPackage canonicalConfig ⟨("domain/entity").toList, 0⟩ = []
    ∧ GetDependenciesForPackage canonicalConfig ⟨("domain/service").toList, 1⟩
        = [("domain/entity").toList, ("domain/valueobject").toList]
    ∧ GetDependenciesForPackage canonicalConfig ⟨("app/usecase").toList, 1⟩
        = [("domain/entity").toList, ("domain/valueobject").toList,
           ("domain/service").toList, ("app/service").toList] :=
  ⟨by decide, by decide, by decide⟩

/-- C9: parsing is a pure, deterministic function of the input text — any two
successful runs on identical text produce structurally equal models. -/
theorem c9_deterministic : ∀ (text : Str) (c1 c2 : DependencyConfig),
    ParseDependencyContent text = .ok c1 → ParseDependencyContent text = .ok c2 →
    c1 = c2 := by
  intro text c1 c2 h1 h2
  rw [h1] at h2
  exact Except.ok.inj h2

/-- Witness for C9 at a concrete input. -/
theorem c9_witness :
    (⟨[⟨("A").toList, 1, []⟩]⟩ : DependencyConfig) = ⟨[⟨("A").toList, 1, []⟩]⟩ :=
  c9_deterministic (("## Layers\n1. A").toList) _ _ rfl rfl

/-- C5: a validation error at any line makes the whole parse return that error
whatever lines follow — no skip-and-continue — and the content-parsing
operation then returns the bare error, with no model beside it. -/
theorem c5_error_abort :
    (∀ (st : ParseState) (pre rest : List Str) (e : ParseErr),
      runLines st pre = .error e → runLines st (pre ++ rest) = .error e)
    ∧ (∀ (lines : List Str) (e : ParseErr),
      runLines initState lines = .error e →
      ParseDependencyContentLines lines = .error e) := by
  constructor
  · intro st pre rest e h
    rw [runLines_append, h]
  · intro lines e h
    simp only [ParseDependencyContentLines, h]

/-- Witness for C5: an empty layer name aborts the parse before later lines. -/
theorem c5_witness :
    runLines initState
        ([("## Layers").toList, ("1.").toList] ++ [("- x").toList])
      = .error .invalidName :=
  c5_error_abort.1 initState [("## Layers").toList, ("1.").toList]
    [("- x").toList] .invalidName rfl

/-- Counterexample to C1: after a successful selector, a selector naming an
undeclared layer leaves the current layer bound, so the following bullet is
appended to the previously selected layer instead of being dropped. -/
theorem c1_counterexample :
    ParseDependencyContent c1text
      = .ok ⟨[⟨("A").toList, 1, [⟨("x").toList, 0⟩]⟩]⟩
    ∧ (⟨[⟨("A").toList, 1, [⟨("x").toList, 0⟩]⟩]⟩ : DependencyConfig)
      ≠ ⟨[⟨("A").toList, 1, []⟩]⟩ :=
  ⟨rfl, by decide⟩

/-- Counterexample to C2: with layers declared out of ascending order, the
deriver walks them in declaration order, not ascending by the order field. -/
theorem c2_counterexample :
    GetDependenciesForPackage c2Config ⟨("c").toList, 0⟩
      = [("b").toList, ("a").toList]
    ∧ GetDependenciesForPackageAsc c2Config ⟨("c").toList, 0⟩
      = [("a").toList, ("b").toList]
    ∧ GetDependenciesForPackage c2Config ⟨("c").toList, 0⟩
      ≠ GetDependenciesForPackageAsc c2Config ⟨("c").toList, 0⟩ :=
  ⟨by decide, by decide, by decide⟩

/-- Counterexample to C3: with a duplicate of the target's path in its layer,
the deriver excludes the level-0 duplicate (path comparison), while the
claim's literal reading (exclude only the target element) would include it. -/
theorem c3_counterexample :
    (⟨("a").toList, 1⟩ : Package)
      ∈ (⟨("L").toList, 1, [⟨("a").toList, 0⟩, ⟨("a").toList, 1⟩]⟩ : Layer).Packages
    ∧ c3Config.Layers = [⟨("L").toList, 1, [⟨("a").toList, 0⟩, ⟨("a").toList, 1⟩]⟩]
    ∧ GetDependenciesForPackage c3Config ⟨("a").toList, 1⟩ = []
    ∧ GetDependenciesForPackageSpecC3 c3Config ⟨("a").toList, 1⟩ = [("a").toList] :=
  ⟨by decide, by decide, by decide, by decide⟩

/-- Counterexample to C8: a line that starts with a tab (so it does not start
with the token) is still matched after trimming, and the extracted identifier
may contain internal whitespace (a tab) yet pass validation. -/
theorem c8_counterexample :
    GetModuleNameFromContentLines [("\tmodule a\tb").toList] = .ok (("a\tb").toList)
    ∧ (("module ").toList).isPrefixOf (("\tmodule a\tb").toList) = false
    ∧ (("a\tb").toList).any isGoSpace = true :=
  ⟨rfl, by decide, by decide⟩

theorem upperPaths_eq_filter (L : List Layer) (o : Nat) :
    upperPaths L o
      = ((L.filter (fun l => decide (l.Order < o))).map
          (fun l => l.Packages.map Package.Path)).flatten := by
  induction L with
  | nil => rfl
  | cons l t ih =>
    by_cases h : l.Order < o
    · simp [upperPaths, List.filter_cons, h, ih]
    · simp [upperPaths, List.filter_cons, h, ih]

theorem sameLayerPaths_eq_enumFrom (pkgs : List Package) (i : Nat)
    (target : Package) (tIdx : Nat) :
    sameLayerPaths pkgs i target tIdx
      = ((List.enumFrom i pkgs).filter (fun ip =>
          ip.2.Path != target.Path
            && (decide (ip.2.Level < target.Level)
                || (ip.2.Level == target.Level && decide (ip.1 < tIdx))))).map
          (fun ip => ip.2.Path) := by
  induction pkgs generalizing i with
  | nil => rfl
  | cons p t ih =>
    simp only [sameLayerPaths, List.enumFrom_cons, List.filter_cons]
    by_cases h : (p.Path != target.Path
        && (decide (p.Level < target.Level)
            || (p.Level == target.Level && decide (i < tIdx)))) = true
    · simp [h, ih]
    · simp [h, ih]

/-- C2 (amended): the upper-layer step of the deriver collects all package
paths of every layer of strictly smaller order, each layer's packages in
declaration order, with the qualifying layers visited in the order they were
declared in the model (not re-sorted ascending by order). -/
theorem c2_decl_order (cfg : DependencyConfig) (target : Package) (tl : Layer)
    (h : cfg.Layers.find? (fun l => l.Packages.any (fun p => p.Path == target.Path))
      = some tl) :
    GetDependenciesForPackage cfg target
      = ((cfg.Layers.filter (fun l => decide (l.Order < tl.Order))).map
          (fun l => l.Packages.map Package.Path)).flatten
        ++ sameLayerPaths tl.Packages 0 target
            (tl.Packages.findIdx (fun p => p.Path == target.Path)) := by
  unfold GetDependenciesForPackage
  rw [h]
  dsimp only
  rw [upperPaths_eq_filter]

/-- Witness for C2 (amended) on the canonical model. -/
theorem c2_witness :
    GetDependenciesForPackage canonicalConfig ⟨("app/usecase").toList, 1⟩
      = ((canonicalConfig.Layers.filter (fun l => decide (l.Order < appLayer.Order))).map
          (fun l => l.Packages.map Package.Path)).flatten
        ++ sameLayerPaths appLayer.Packages 0 ⟨("app/usecase").toList, 1⟩
            (appLayer.Packages.findIdx (fun p => p.Path == ("app/usecase").toList)) :=
  c2_decl_order canonicalConfig ⟨("app/usecase").toList, 1⟩ appLayer rfl

/-- C3 (amended): the same-layer step keeps exactly the indexed packages whose
path differs from the target's (every package sharing the target's path is
excluded, not merely the target element), at a strictly smaller level or at an
equal level and an index before the first index holding the target's path; the
result is the upper-layer paths followed by these paths, with no
de-duplication. -/
theorem c3_path_exclusion (cfg : DependencyConfig) (target : Package) (tl : Layer)
    (h : cfg.Layers.find? (fun l => l.Packages.any (fun p => p.Path == target.Path))
      = some tl) :
    GetDependenciesForPackage cfg target
      = upperPaths cfg.Layers tl.Order
        ++ ((tl.Packages.enum.filter (fun ip =>
            ip.2.Path != target.Path
              && (decide (ip.2.Level < target.Level)
                  || (ip.2.Level == target.Level
                      && decide (ip.1
                          < tl.Packages.findIdx (fun p => p.Path == target.Path)))))).map
            (fun ip => ip.2.Path)) := by
  unfold GetDependenciesForPackage
  rw [h]
  dsimp only
  rw [sameLayerPaths_eq_enumFrom]
  rfl

/-- Witness for C3 (amended) on the canonical model. -/
theorem c3_witness :
    GetDependenciesForPackage canonicalConfig ⟨("domain/service").toList, 1⟩
      = upperPaths canonicalConfig.Layers domainLayer.Order
        ++ ((domainLayer.Packages.enum.filter (fun ip =>
            ip.2.Path != ("domain/service").toList
              && (decide (ip.2.Level < 1)
                  || (ip.2.Level == 1
                      && decide (ip.1
                          < domainLayer.Packages.findIdx
                              (fun p => p.Path == ("domain/service").toList)))))).map
            (fun ip => ip.2.Path)) :=
  c3_path_exclusion canonicalConfig ⟨("domain/service").toList, 1⟩ domainLayer rfl

theorem setPkgLevel_Path (path : Str) (lvl : Nat) (p : Package) :
    (setPkgLevel path lvl p).Path = p.Path := by
  unfold setPkgLevel
  split <;> rfl

theorem mapPath_setPkgLevel (path : Str) (lvl : Nat) (pkgs : List Package) :
    (pkgs.map (setPkgLevel path lvl)).map Package.Path = pkgs.map Package.Path := by
  induction pkgs with
  | nil => rfl
  | cons p t ih => simp only [List.map_cons, ih, setPkgLevel_Path]

theorem anyPath_setPkgLevel (path lvl : _) (q : Str) (pkgs : List Package) :
    (pkgs.map (setPkgLevel path lvl)).any (fun p => p.Path == q)
      = pkgs.any (fun p => p.Path == q) := by
  induction pkgs with
  | nil => rfl
  | cons p t ih => simp only [List.map_cons, List.any_cons, ih, setPkgLevel_Path]

theorem findIdx_setPkgLevel (path lvl : _) (q : Str) (pkgs : List Package) :
    List.findIdx (fun p => p.Path == q) (pkgs.map (setPkgLevel path lvl))
      = List.findIdx (fun p => p.Path == q) pkgs := by
  induction pkgs with
  | nil => rfl
  | cons p t ih => simp only [List.map_cons, List.findIdx_cons, ih, setPkgLevel_Path]

theorem sameLayerPaths_setPkgLevel (lvl : Nat) (target : Package) (tIdx : Nat)
    (pkgs : List Package) (i : Nat) :
    sameLayerPaths (pkgs.map (setPkgLevel target.Path lvl)) i target tIdx
      = sameLayerPaths pkgs i target tIdx := by
  induction pkgs generalizing i with
  | nil => rfl
  | cons p t ih =>
    simp only [List.map_cons, sameLayerPaths, ih]
    congr 1
    by_cases h : (p.Path == target.Path) = true
    · have h2 : p.Path = target.Path := eq_of_beq h
      simp [setPkgLevel, h2]
    · simp [setPkgLevel, h]

theorem upperPaths_setLevel (path : Str) (lvl : Nat) (L : List Layer) (o : Nat) :
    upperPaths (L.map (setLayerLevel path lvl)) o = upperPaths L o := by
  induction L with
  | nil => rfl
  | cons l t ih =>
    simp only [List.map_cons, upperPaths, ih]
    congr 1
    by_cases h : l.Order < o
    · simp only [setLayerLevel, h, decide_true_eq_true, if_pos, mapPath_setPkgLevel]
    · simp [setLayerLevel, h]

/-- C10: the deriver locates the target's layer and index by path equality
alone and compares levels against the caller-supplied level — overwriting the
stored level of every package holding the target's path changes nothing, and
two queries with the same path but different caller-supplied levels can return
different sibling sets. -/
theorem c10_caller_level :
    (∀ (cfg : DependencyConfig) (target : Package) (lvl : Nat),
      GetDependenciesForPackage (setLevelAt target.Path lvl cfg) target
        = GetDependenciesForPackage cfg target)
    ∧ GetDependenciesForPackage c10Config ⟨("b").toList, 1⟩ = [("a").toList]
    ∧ GetDependenciesForPackage c10Config ⟨("b").toList, 0⟩ = []
    ∧ GetDependenciesForPackage c10Config ⟨("b").toList, 1⟩
      ≠ GetDependenciesForPackage c10Config ⟨("b").toList, 0⟩ := by
  refine ⟨?_, by decide, by decide, by decide⟩
  intro cfg target lvl
  unfold GetDependenciesForPackage setLevelAt
  rw [List.find?_map]
  have hpred : ((fun l => l.Packages.any fun p => p.Path == target.Path)
      ∘ setLayerLevel target.Path lvl)
      = (fun l => l.Packages.any fun p => p.Path == target.Path) := by
    funext l
    exact anyPath_setPkgLevel target.Path lvl target.Path l.Packages
  rw [hpred]
  cases hf : cfg.Layers.find? (fun l => l.Packages.any fun p => p.Path == target.Path) with
  | none => rfl
  | some tl =>
    simp only [Option.map_some']
    show upperPaths (cfg.Layers.map (setLayerLevel target.Path lvl))
        (setLayerLevel target.Path lvl tl).Order
      ++ sameLayerPaths (setLayerLevel target.Path lvl tl).Packages 0 target
          (List.findIdx (fun p => p.Path == target.Path)
            (setLayerLevel target.Path lvl tl).Packages)
      = _
    rw [upperPaths_setLevel]
    show upperPaths cfg.Layers tl.Order
      ++ sameLayerPaths (tl.Packages.map (setPkgLevel target.Path lvl)) 0 target
          (List.findIdx (fun p => p.Path == target.Path)
            (tl.Packages.map (setPkgLevel target.Path lvl)))
      = _
    rw [findIdx_setPkgLevel, sameLayerPaths_setPkgLevel]

theorem numberedLine_dash (t : Str) : numberedLine ('-' :: t) = none := by
  have hd : Char.isDigit '-' = false := by decide
  simp [numberedLine, List.takeWhile_cons, hd]

/-- C1 (amended): a Packages-section selector naming a name+order pair that
matches no parsed layer leaves the current-layer context unchanged (it does
not become none) and raises no error; bullet lines are silently dropped only
while the context is none, that is, only until the first successful selector
after the section header. -/
theorem c1_unmatched_selector :
    (∀ (cfg : DependencyConfig) (cur : Option Nat) (rawLine : Str)
        (order : Nat) (tail : Str),
      containsSub (trimSpace rawLine) cannotDependTok = false →
      numberedLine (trimSpace rawLine) = some (order, tail) →
      tail.all isReSpace = false →
      (tail.takeWhile isReSpace).isEmpty = false →
      findLayerIdx cfg (trimSpace (tail.dropWhile isReSpace)) order = none →
      parsePackagesLine rawLine cfg cur = .ok (cfg, cur))
    ∧ (∀ (cfg : DependencyConfig) (rawLine : Str),
      bulletTok.isPrefixOf (trimSpace rawLine) = true →
      parsePackagesLine rawLine cfg none = .ok (cfg, none)) := by
  constructor
  · intro cfg cur rawLine order tail h1 h2 h3 h4 h5
    have hne : (trimSpace rawLine).isEmpty = false := by
      cases htr : trimSpace rawLine with
      | nil => rw [htr] at h2; simp [numberedLine] at h2
      | cons c t => rfl
    simp [parsePackagesLine, h1, hne, h2, h3, h4, h5]
  · intro cfg rawLine h
    cases htr : trimSpace rawLine with
    | nil => rw [htr] at h; simp [bulletTok, List.isPrefixOf] at h
    | cons c t =>
      rw [htr] at h
      cases t with
      | nil => simp [bulletTok, List.isPrefixOf] at h
      | cons c2 t2 =>
        simp [bulletTok, List.isPrefixOf] at h
        obtain ⟨hc, hc2⟩ := h
        subst hc
        subst hc2
        by_cases hcd : containsSub ('-' :: ' ' :: t2) cannotDependTok = true
        · simp [parsePackagesLine, htr, hcd]
        · have hnum : numberedLine ('-' :: ' ' :: t2) = none := numberedLine_dash _
          simp [parsePackagesLine, htr, hcd, hnum]

/-- Witness for C1 (amended): an unmatched selector keeps the bound layer, and
a bullet with no bound layer is dropped without error. -/
theorem c1_witness :
    parsePackagesLine (("2. B").toList) ⟨[⟨("A").toList, 1, []⟩]⟩ (some 0)
      = .ok (⟨[⟨("A").toList, 1, []⟩]⟩, some 0)
    ∧ parsePackagesLine (("- x").toList) ⟨[⟨("A").toList, 1, []⟩]⟩ none
      = .ok (⟨[⟨("A").toList, 1, []⟩]⟩, none) :=
  ⟨c1_unmatched_selector.1 ⟨[⟨("A").toList, 1, []⟩]⟩ (some 0) (("2. B").toList) 2
      ((" B").toList) (by decide) rfl (by decide) (by decide) (by decide),
    c1_unmatched_selector.2 ⟨[⟨("A").toList, 1, []⟩]⟩ (("- x").toList) (by decide)⟩

theorem moduleNameValidate_ne_notfound (s : Str) :
    moduleNameValidate s ≠ some .moduleNotFound := by
  unfold moduleNameValidate
  split
  · intro h; exact ParseErr.noConfusion (Option.some.inj h)
  · split
    · intro h; exact ParseErr.noConfusion (Option.some.inj h)
    · intro h; exact Option.noConfusion h

theorem trimSpace_isEmpty_of_isEmpty (s : Str) (h : s.isEmpty = true) :
    (trimSpace s).isEmpty = true := by
  cases s with
  | nil => rfl
  | cons a t => simp at h

/-- C8 (amended): module extraction trims each line and takes the first whose
trimmed form starts with the token `module `; its remainder, trimmed, is the
identifier, which is validated to be non-blank and to contain no space
character (other whitespace such as a tab is accepted); `ModuleNotFound` is
returned if and only if no trimmed line starts with the token. -/
theorem c8_module_scan :
    (∀ lines : List Str,
      GetModuleNameFromContentLines lines = .error .moduleNotFound
        ↔ ∀ l ∈ lines, moduleTok.isPrefixOf (trimSpace l) = false)
    ∧ (∀ (l : Str) (rest : List Str),
      moduleTok.isPrefixOf (trimSpace l) = true →
      GetModuleNameFromContentLines (l :: rest)
        = match moduleNameValidate (trimSpace ((trimSpace l).drop 7)) with
          | some e => .error e
          | none => .ok (trimSpace ((trimSpace l).drop 7)))
    ∧ (∀ (l : Str) (rest : List Str),
      moduleTok.isPrefixOf (trimSpace l) = false →
      GetModuleNameFromContentLines (l :: rest) = GetModuleNameFromContentLines rest)
    ∧ (∀ s : Str, moduleNameValidate s = none
        ↔ ((trimSpace s).isEmpty = false ∧ containsSub s [' '] = false)) := by
  refine ⟨?_, ?_, ?_, ?_⟩
  · intro lines
    induction lines with
    | nil => simp [GetModuleNameFromContentLines]
    | cons l rest ih =>
      by_cases h : moduleTok.isPrefixOf (trimSpace l) = true
      · constructor
        · intro hlhs
          exfalso
          simp only [GetModuleNameFromContentLines, h, if_true] at hlhs
          cases hv : moduleNameValidate (trimSpace ((trimSpace l).drop 7)) with
          | some e =>
            rw [hv] at hlhs
            exact moduleNameValidate_ne_notfound _
              (hv.trans (congrArg some (Except.error.inj hlhs)))
          | none =>
            rw [hv] at hlhs
            exact Except.noConfusion hlhs
        · intro hall
          have := hall l (List.mem_cons_self l rest)
          rw [h] at this
          exact Bool.noConfusion this
      · have hf : moduleTok.isPrefixOf (trimSpace l) = false := by
          rwa [Bool.not_eq_true] at h
        simp [GetModuleNameFromContentLines, hf, ih]
  · intro l rest h
    simp [GetModuleNameFromContentLines, h]
  · intro l rest h
    simp [GetModuleNameFromContentLines, h]
  · intro s
    by_cases h1 : s.isEmpty = true
    · have h2 := trimSpace_isEmpty_of_isEmpty s h1
      simp [moduleNameValidate, h1, h2]
    · have h1b : s.isEmpty = false := by rwa [Bool.not_eq_true] at h1
      by_cases h2 : (trimSpace s).isEmpty = true
      · simp [moduleNameValidate, h1b, h2]
      · have h2b : (trimSpace s).isEmpty = false := by rwa [Bool.not_eq_true] at h2
        by_cases h3 : containsSub s [' '] = true
        · simp [moduleNameValidate, h1b, h2b, h3]
        · have h3b : containsSub s [' '] = false := by rwa [Bool.not_eq_true] at h3
          simp [moduleNameValidate, h1b, h2b, h3b]

/-- Witness for C8 (amended): a matched line yields its trimmed identifier,
and an input with no module line yields ModuleNotFound. -/
theorem c8_witness :
    GetModuleNameFromContentLines [("module x").toList] = .ok (("x").toList)
    ∧ GetModuleNameFromContentLines [("go 1.21").toList] = .error .moduleNotFound :=
  ⟨c8_module_scan.2.1 (("module x").toList) [] (by decide),
    (c8_module_scan.1 [("go 1.21").toList]).mpr (by decide)⟩

theorem layersHeader_not_pre_dash (t : Str) :
    layersHeaderTok.isPrefixOf ('-' :: t) = false := by
  show (('#' == '-') && (("# Layers").toList).isPrefixOf t) = false
  rw [show ('#' == '-') = false from by decide, Bool.false_and]

theorem packagesHeader_not_pre_dash (t : Str) :
    packagesHeaderTok.isPrefixOf ('-' :: t) = false := by
  show (('#' == '-') && (("# Packages in layers").toList).isPrefixOf t) = false
  rw [show ('#' == '-') = false from by decide, Bool.false_and]

theorem hash_not_pre_dash (t : Str) : (['#'] : Str).isPrefixOf ('-' :: t) = false := by
  show (('#' == '-') && ([] : Str).isPrefixOf t) = false
  rw [show ('#' == '-') = false from by decide, Bool.false_and]

/-- C6: path validation fails (always with InvalidPath) exactly when the
string is empty or whitespace-only or contains the substring `..` anywhere;
during parsing it runs when a bullet line constructs a package record, and its
failure aborts the whole parse with that error. -/
theorem c6_path_validation :
    (∀ s : Str, layerPathValidate s = some .invalidPath
        ↔ ((trimSpace s).isEmpty = true ∨ containsSub s dotDotTok = true))
    ∧ (∀ (pre : List Str) (line : Str) (rest : List Str) (st : ParseState) (i : Nat),
      runLines initState pre = .ok st →
      st.inLayers = false → st.inPackages = true → st.currentLayer = some i →
      bulletTok.isPrefixOf (trimSpace line) = true →
      containsSub (trimSpace line) cannotDependTok = false →
      (trimSpace ((trimSpace line).drop 2)).isEmpty = false →
      layerPathValidate (trimSpace ((trimSpace line).drop 2)) = some .invalidPath →
      ParseDependencyContentLines (pre ++ line :: rest) = .error .invalidPath) := by
  constructor
  · intro s
    by_cases h1 : s.isEmpty = true
    · have h2 := trimSpace_isEmpty_of_isEmpty s h1
      simp [layerPathValidate, h1, h2]
    · have h1b : s.isEmpty = false := by rwa [Bool.not_eq_true] at h1
      by_cases h2 : (trimSpace s).isEmpty = true
      · simp [layerPathValidate, h1b, h2]
      · have h2b : (trimSpace s).isEmpty = false := by rwa [Bool.not_eq_true] at h2
        by_cases h3 : containsSub s dotDotTok = true
        · simp [layerPathValidate, h1b, h2b, h3]
        · have h3b : containsSub s dotDotTok = false := by rwa [Bool.not_eq_true] at h3
          simp [layerPathValidate, h1b, h2b, h3b]
  · intro pre line rest st i hpre hL hP hcur hbul hcd hpne hval
    obtain ⟨t2, htr⟩ : ∃ t2, trimSpace line = '-' :: ' ' :: t2 := by
      cases htr0 : trimSpace line with
      | nil => rw [htr0] at hbul; simp [bulletTok, List.isPrefixOf] at hbul
      | cons c t =>
        cases t with
        | nil => rw [htr0] at hbul; simp [bulletTok, List.isPrefixOf] at hbul
        | cons c2 t2 =>
          rw [htr0] at hbul
          simp [bulletTok, List.isPrefixOf] at hbul
          obtain ⟨hc, hc2⟩ := hbul
          subst hc
          subst hc2
          exact ⟨t2, rfl⟩
    rw [htr] at hcd hpne hval
    have hpp : parsePackagesLine line st.config st.currentLayer = .error .invalidPath := by
      have hnum : numberedLine ('-' :: ' ' :: t2) = none := numberedLine_dash _
      have hbul2 : bulletTok.isPrefixOf ('-' :: ' ' :: t2) = true := by
        rw [← htr]; exact hbul
      simp only [parsePackagesLine, htr, hcd, List.isEmpty_cons, Bool.or_false,
        Bool.false_or, hnum, hbul2, if_true, hcur, List.drop_succ_cons, List.drop_zero]
      simp only [List.drop_succ_cons, List.drop_zero] at hpne hval
      simp [hpne, hval]
    have hstep : parseLine st line = .error .invalidPath := by
      simp only [parseLine, htr, layersHeader_not_pre_dash, packagesHeader_not_pre_dash,
        hash_not_pre_dash, List.isEmpty_cons, Bool.or_false, Bool.false_or, hL, hP]
      simp only [Bool.false_eq_true, if_false, if_true]
      simp [hpp]
    have hrun : runLines initState (pre ++ line :: rest) = .error .invalidPath := by
      rw [runLines_append, hpre]
      simp only [runLines, hstep]
    simp only [ParseDependencyContentLines, hrun]

/-- Witness for C6: a bullet whose path contains `..` aborts the whole parse. -/
theorem c6_witness :
    ParseDependencyContentLines
        ([("## Layers").toList, ("1. A").toList,
          ("## Packages in layers").toList, ("1. A").toList]
          ++ ("- a..b").toList :: [])
      = .error .invalidPath :=
  c6_path_validation.2
    [("## Layers").toList, ("1. A").toList,
      ("## Packages in layers").toList, ("1. A").toList]
    (("- a..b").toList) []
    ⟨⟨[⟨("A").toList, 1, []⟩]⟩, false, true, some 0⟩ 0
    rfl rfl rfl rfl (by decide) (by decide) (by decide) (by decide)

theorem calcLevel_cases (line : Str) :
    calculateIndentationLevel line = 0 ∨ calculateIndentationLevel line = 1 := by
  unfold calculateIndentationLevel
  by_cases h : (line.takeWhile (fun c => c == ' ')).length >= 4
  · right; simp [h]
  · left; simp [h, ite_self]

theorem pkgLevelsOK_appendPkg (cfg : DependencyConfig) (i : Nat) (pkg : Package)
    (hc : pkgLevelsOK cfg) (hp : pkg.Level = 0 ∨ pkg.Level = 1) :
    pkgLevelsOK (appendPkg cfg i pkg) := by
  intro l hl p hpm
  simp only [appendPkg] at hl
  rcases mem_modifyIdx cfg.Layers i _ hl with h1 | ⟨b, hb, rfl⟩
  · exact hc l h1 p hpm
  · rcases List.mem_append.mp hpm with h2 | h2
    · exact hc b hb p h2
    · rw [List.mem_singleton.mp h2]
      exact hp

theorem pkgLevelsOK_layersLine (line : Str) (cfg cfg2 : DependencyConfig)
    (h : parseLayersLine line cfg = .ok cfg2) (hc : pkgLevelsOK cfg) :
    pkgLevelsOK cfg2 := by
  simp only [parseLayersLine] at h
  split at h
  · exact (Except.ok.inj h) ▸ hc
  · split at h
    · exact (Except.ok.inj h) ▸ hc
    · split at h
      · exact Except.noConfusion h
      · split at h
        · exact (Except.ok.inj h) ▸ hc
        · split at h
          · exact Except.noConfusion h
          · rw [← Except.ok.inj h]
            intro l hl p hp
            rcases List.mem_append.mp hl with h1 | h2
            · exact hc l h1 p hp
            · rw [List.mem_singleton.mp h2] at hp
              cases hp

theorem pkgLevelsOK_packagesLine (line : Str) (cfg cfg2 : DependencyConfig)
    (cur cur2 : Option Nat)
    (h : parsePackagesLine line cfg cur = .ok (cfg2, cur2)) (hc : pkgLevelsOK cfg) :
    pkgLevelsOK cfg2 := by
  simp only [parsePackagesLine] at h
  split at h
  · injection h with h3
    injection h3 with h4 h5
    exact h4 ▸ hc
  · split at h
    · split at h
      · exact Except.noConfusion h
      · split at h
        · injection h with h3
          injection h3 with h4 h5
          exact h4 ▸ hc
        · split at h
          · injection h with h3
            injection h3 with h4 h5
            exact h4 ▸ hc
          · injection h with h3
            injection h3 with h4 h5
            exact h4 ▸ hc
    · split at h
      · split at h
        · split at h
          · injection h with h3
            injection h3 with h4 h5
            exact h4 ▸ hc
          · split at h
            · exact Except.noConfusion h
            · injection h with h3
              injection h3 with h4 h5
              rw [← h4]
              exact pkgLevelsOK_appendPkg cfg _ _ hc (calcLevel_cases line)
        · injection h with h3
          injection h3 with h4 h5
          exact h4 ▸ hc
      · injection h with h3
        injection h3 with h4 h5
        exact h4 ▸ hc

theorem pkgLevelsOK_parseLine (st st2 : ParseState) (line : Str)
    (h : parseLine st line = .ok st2) (hc : pkgLevelsOK st.config) :
    pkgLevelsOK st2.config := by
  simp only [parseLine] at h
  split at h
  · injection h with h3
    rw [← h3]
    exact hc
  · split at h
    · injection h with h3
      rw [← h3]
      exact hc
    · split at h
      · injection h with h3
        rw [← h3]
        exact hc
      · split at h
        · exact Except.noConfusion h
        · rename_i cfg1 heq
          have hcfg1 : pkgLevelsOK cfg1 := by
            by_cases hL : st.inLayers = true
            · rw [if_pos hL] at heq
              exact pkgLevelsOK_layersLine line st.config cfg1 heq hc
            · rw [if_neg hL] at heq
              exact (Except.ok.inj heq) ▸ hc
          split at h
          · split at h
            · exact Except.noConfusion h
            · rename_i pr cfg2 cur2 heq2
              injection h with h3
              rw [← h3]
              exact pkgLevelsOK_packagesLine line cfg1 cfg2 st.currentLayer cur2 heq2 hcfg1
          · injection h with h3
            rw [← h3]
            exact hcfg1

theorem pkgLevelsOK_runLines (lines : List Str) : ∀ (st st2 : ParseState),
    runLines st lines = .ok st2 → pkgLevelsOK st.config → pkgLevelsOK st2.config := by
  induction lines with
  | nil =>
    intro st st2 h hc
    injection h with h3
    rw [← h3]
    exact hc
  | cons l ls ih =>
    intro st st2 h hc
    simp only [runLines] at h
    split at h
    · exact Except.noConfusion h
    · rename_i stm heq
      exact ih stm st2 h (pkgLevelsOK_parseLine st stm l heq hc)

/-- C7: the indentation mapping sends fewer than four leading spaces to level
0 and four or more to level 1, so every package of a successfully parsed model
has level 0 or level 1. -/
theorem c7_levels :
    (∀ line : Str,
      calculateIndentationLevel line
        = if 4 ≤ (line.takeWhile (fun c => c == ' ')).length then 1 else 0)
    ∧ (∀ (text : Str) (cfg : DependencyConfig),
      ParseDependencyContent text = .ok cfg →
      ∀ l ∈ cfg.Layers, ∀ p ∈ l.Packages, p.Level = 0 ∨ p.Level = 1) := by
  constructor
  · intro line
    by_cases h : 4 ≤ (line.takeWhile (fun c => c == ' ')).length
    · simp [calculateIndentationLevel, h, ge_iff_le]
    · simp [calculateIndentationLevel, h, ge_iff_le, ite_self]
  · intro text cfg h
    simp only [ParseDependencyContent, ParseDependencyContentLines] at h
    split at h
    · exact Except.noConfusion h
    · rename_i st heq
      injection h with h3
      rw [← h3]
      exact pkgLevelsOK_runLines (splitNl text) initState st heq
        (by intro l hl; cases hl)

/-- Witness for C7 at a concrete input with a level-1 package. -/
theorem c7_witness :
    (⟨("deep/pkg").toList, 1⟩ : Package).Level = 0
    ∨ (⟨("deep/pkg").toList, 1⟩ : Package).Level = 1 :=
  c7_levels.2 c7text ⟨[⟨("A").toList, 1, [⟨("deep/pkg").toList, 1⟩]⟩]⟩ rfl
    ⟨("A").toList, 1, [⟨("deep/pkg").toList, 1⟩]⟩ (by decide)
    ⟨("deep/pkg").toList, 1⟩ (by decide)

end GoDep
